import Mathlib

/-!
# Verification of the libpag glyph-atlas subsystem (`TextAtlas.cpp`) and `Shape.cpp`

This file gives a shallow embedding of the rectangle packer, the page builder
(`Atlas::initPages`), the `Atlas` / `TextAtlas` lookup operations and
`Shape::MakeFrom`, translated from the C++ sources.  Machine `int` values are
modelled as `Int` (the quantities involved stay far below 2^31 in every claim),
and `float` quantities (scale factors, stroke widths, glyph bounds) are
modelled as exact rationals `ℚ`; `static_cast<int>` of a nonnegative float is
rational truncation, and `ceil` / `floor` are `⌈·⌉` / `⌊·⌋`.
-/

namespace PagSpec

/-- C++ `static_cast<int>` applied to a float value: truncation toward zero. -/
def cppTrunc (q : ℚ) : Int :=
  if 0 ≤ q then ⌊q⌋ else ⌈q⌉

/-- Axis-aligned rectangle given by origin and size, in (rational) pixels.
Mirrors the use of `tgfx::Rect` through `Rect::MakeXYWH`. -/
structure QRect where
  x : ℚ
  y : ℚ
  w : ℚ
  h : ℚ
  deriving DecidableEq, Repr

/-- `tgfx::Rect::scale(sx, sy)`: every coordinate is multiplied by the factor. -/
def QRect.scaleBy (r : QRect) (s : ℚ) : QRect :=
  ⟨r.x * s, r.y * s, r.w * s, r.h * s⟩

/-- Half-open intersection test for two rectangles (used to state the
no-overlap property of packed rectangles). -/
def QRect.intersects (a b : QRect) : Prop :=
  a.x < b.x + b.w ∧ b.x < a.x + a.w ∧ a.y < b.y + b.h ∧ b.y < a.y + a.h

instance (a b : QRect) : Decidable (a.intersects b) := by
  unfold QRect.intersects; infer_instance

/-- `TextStyle` from `pag/types`: the render style of a glyph. -/
inductive TextStyle where
  | Fill
  | Stroke
  | StrokeAndFill
  deriving DecidableEq, Repr

/-- `tgfx::PaintStyle`. -/
inductive PaintStyle where
  | Fill
  | Stroke
  deriving DecidableEq, Repr

/-- `ToTGFXPaintStyle` (TextAtlas.cpp): `StrokeAndFill` and `Fill` map to
`Fill`, `Stroke` maps to `Stroke`. -/
def ToTGFXPaintStyle : TextStyle → PaintStyle
  | TextStyle.StrokeAndFill => PaintStyle.Fill
  | TextStyle.Fill => PaintStyle.Fill
  | TextStyle.Stroke => PaintStyle.Stroke

/-- The part of `tgfx::Font` observable in this file: nominal size, the
typeface's unique id, and the typeface's color-capability flag. -/
structure Font where
  size : ℚ
  typefaceID : ℕ
  hasColor : Bool
  deriving DecidableEq, Repr

/-- The part of `tgfx::Paint` set by `CreateTextRun`: the paint style and
the stroke width, recorded only when it was explicitly set. -/
structure Paint where
  style : PaintStyle
  strokeWidth : Option ℚ
  deriving DecidableEq, Repr

/-- A glyph handle (`pag::Glyph`), restricted to the accessors used by
`TextAtlas.cpp`: font, glyph id, render style, stroke width and ink bounds. -/
structure Glyph where
  font : Font
  glyphID : ℕ
  style : TextStyle
  strokeWidth : ℚ
  bounds : QRect
  deriving DecidableEq, Repr

/-- The content of the `tgfx::BytesKey` written by `ComputeStyleKey`:
the style discriminant, the stroke width and the typeface unique id.
Key equality is structural, exactly as byte-wise equality of the serialized
fields. -/
structure StyleKey where
  style : TextStyle
  strokeWidth : ℚ
  typefaceID : ℕ
  deriving DecidableEq, Repr

/-- `ComputeStyleKey` (TextAtlas.cpp). -/
def ComputeStyleKey (g : Glyph) : StyleKey :=
  ⟨g.style, g.strokeWidth, g.font.typefaceID⟩

/-- Modelled from the spec: `Glyph::computeAtlasKey` is declared but not part
of the excerpt.  Per the spec's external-interface contract it is "a
deterministic key-writer that serializes (style-discriminant, stroke-width,
typeface-id) plus glyph index into a byte key for lookup-table use". -/
structure AtlasKey where
  style : TextStyle
  strokeWidth : ℚ
  typefaceID : ℕ
  glyphID : ℕ
  deriving DecidableEq, Repr

/-- Modelled from the spec: the atlas key written by
`glyph->computeAtlasKey(&key, style)` for a given style argument. -/
def Glyph.computeAtlasKey (g : Glyph) (style : TextStyle) : AtlasKey :=
  ⟨style, g.strokeWidth, g.font.typefaceID, g.glyphID⟩

/-- `AtlasTextRun` (TextAtlas.cpp): the accumulated draw batch for one style
key on one page. -/
structure AtlasTextRun where
  paint : Paint
  textFont : Font
  glyphIDs : List ℕ
  positions : List (ℚ × ℚ)
  deriving DecidableEq, Repr

/-- `CreateTextRun` (TextAtlas.cpp): paint style from `ToTGFXPaintStyle`; the
stroke width is set only when the style is exactly `Stroke`. -/
def CreateTextRun (g : Glyph) : AtlasTextRun :=
  { paint := { style := ToTGFXPaintStyle g.style,
               strokeWidth := if g.style = TextStyle.Stroke then some g.strokeWidth else none },
    textFont := g.font,
    glyphIDs := [],
    positions := [] }

/-- `AtlasLocator`: page index plus the final-pixel rectangle of the glyph. -/
structure AtlasLocator where
  pageIndex : ℕ
  location : QRect
  deriving DecidableEq, Repr

/-- `Atlas::Page`: the closed draw lists plus the page's pixel dimensions.
The GPU texture captured by `Atlas::draw` is modelled as an opaque handle. -/
structure Page where
  textRuns : List AtlasTextRun
  width : Int
  height : Int
  texture : ℕ := 0
  deriving DecidableEq, Repr

/-! ## The rectangle packer (`RectanglePack`) -/

/-- `RectanglePack` (TextAtlas.cpp): padding, current packed extent
`_width`/`_height` and the cursor `(x, y)`. -/
structure RectanglePack where
  padding : Int
  width : Int
  height : Int
  x : Int
  y : Int
  deriving DecidableEq, Repr

/-- The constructor `RectanglePack(float scale)`:
`padding = int(ceil(3 / scale))`, then `reset()`. -/
def RectanglePack.make (scale : ℚ) : RectanglePack :=
  let p : Int := cppTrunc ⌈(3 : ℚ) / scale⌉
  ⟨p, p, p, p, p⟩

/-- `RectanglePack::reset()`. -/
def RectanglePack.reset (rp : RectanglePack) : RectanglePack :=
  ⟨rp.padding, rp.padding, rp.padding, rp.padding, rp.padding⟩

/-- `RectanglePack::addRect(w, h)`: returns the placement point and the
updated packer state.  A direct transcription of the C++. -/
def RectanglePack.addRect (rp : RectanglePack) (w0 h0 : Int) : (Int × Int) × RectanglePack :=
  let w := w0 + rp.padding
  let h := h0 + rp.padding
  let area := (rp.width - rp.x) * (rp.height - rp.y)
  let rp1 :=
    if (rp.x + w - rp.width) * rp.y > area ∨ (rp.y + h - rp.height) * rp.x > area then
      if rp.width ≤ rp.height then
        { rp with x := rp.width, y := rp.padding, width := rp.width + w }
      else
        { rp with x := rp.padding, y := rp.height, height := rp.height + h }
    else rp
  let point := (rp1.x, rp1.y)
  let rp2 :=
    if rp1.x + w - rp1.width < rp1.y + h - rp1.height then
      { rp1 with x := rp1.x + w, height := max rp1.height (rp1.y + h) }
    else
      { rp1 with y := rp1.y + h, width := max rp1.width (rp1.x + w) }
  (point, rp2)

/-! ## Small list helpers (index search, in-place update, assoc-list map) -/

/-- Index of the first occurrence of `a` in `l` (the `std::find` over
`styleKeys` in `Atlas::initPages`). -/
def findIdxD {α : Type} [DecidableEq α] (a : α) : List α → Option ℕ
  | [] => none
  | b :: l => if b = a then some 0 else (findIdxD a l).map (· + 1)

/-- Update the element at index `i` (like writing through the C++ `textRun`
pointer into a run vector). Out-of-range indices leave the list unchanged. -/
def modifyIdx {α : Type} (f : α → α) : ℕ → List α → List α
  | _, [] => []
  | 0, a :: l => f a :: l
  | n + 1, a :: l => a :: modifyIdx f n l

/-- Lookup in an association list (the `std::unordered_map::find`). -/
def alistLookup {κ ν : Type} [DecidableEq κ] (k : κ) : List (κ × ν) → Option ν
  | [] => none
  | (k', v) :: l => if k' = k then some v else alistLookup k l

/-- Insert-or-assign in an association list
(the `std::unordered_map::operator[] =`). -/
def upsert {κ ν : Type} [DecidableEq κ] (k : κ) (v : ν) : List (κ × ν) → List (κ × ν)
  | [] => [(k, v)]
  | (k', v') :: l => if k' = k then (k', v) :: l else (k', v') :: upsert k v l

/-! ## The page builder (`Atlas::initPages`) -/

/-- The integer stroke inflation of a glyph
(`int strokeWidth` in `Atlas::initPages`): `ceil(strokeWidth)` when the style
is exactly `Stroke`, `0` otherwise. -/
def strokeInt (g : Glyph) : Int :=
  if g.style = TextStyle.Stroke then ⌈g.strokeWidth⌉ else 0

/-- The padded bitmap size handed to `RectanglePack::addRect`
(`width`/`height` in `Atlas::initPages`): truncated ink bounds inflated by
`2 × strokeInt` on each axis. -/
def glyphPackSize (g : Glyph) : Int × Int :=
  (cppTrunc g.bounds.w + 2 * strokeInt g, cppTrunc g.bounds.h + 2 * strokeInt g)

/-- The draw origin (`x`/`y` in `Atlas::initPages`): ink-bounds origin shifted
by the stroke inflation. -/
def glyphDrawOrigin (g : Glyph) : ℚ × ℚ :=
  (g.bounds.x - (strokeInt g : ℚ), g.bounds.y - (strokeInt g : ℚ))

/-- Append a glyph's draw entry to the run at index `i`
(`textRun->glyphIDs.push_back` / `textRun->positions.push_back`). -/
def appendGlyph (i : ℕ) (gid : ℕ) (point : Int × Int) (origin : ℚ × ℚ)
    (runs : List AtlasTextRun) : List AtlasTextRun :=
  modifyIdx (fun r =>
    { r with glyphIDs := r.glyphIDs ++ [gid],
             positions := r.positions ++ [(-origin.1 + (point.1 : ℚ), -origin.2 + (point.2 : ℚ))] })
    i runs

/-- The locator recorded for a glyph: page index plus the packed rectangle at
the returned point, scaled up to final pixels
(`Rect::MakeXYWH(...).scale(scale, scale)`). -/
def mkLocator (pageIndex : ℕ) (point : Int × Int) (w h : Int) (scale : ℚ) : AtlasLocator :=
  ⟨pageIndex, QRect.scaleBy ⟨(point.1 : ℚ), (point.2 : ℚ), (w : ℚ), (h : ℚ)⟩ scale⟩

/-- The loop state of `Atlas::initPages`: the locals `styleKeys`, `textRuns`,
`pack`, `page`/`pages`, `pageIndex` and the atlas's `glyphLocators` map.

The two fields `closedGlyphKeys` and `curGlyphKeys` are ghost observers used
only to state the style-grouping property: they record, for each closed page
and for the in-progress page, the style key of every glyph whose draw entry
was appended to a run of that page, in append order.  No non-ghost field
depends on them. -/
structure BuildState where
  styleKeys : List StyleKey
  textRuns : List AtlasTextRun
  pack : RectanglePack
  pages : List Page
  pageIndex : ℕ
  glyphLocators : List (AtlasKey × AtlasLocator)
  closedGlyphKeys : List (List StyleKey)
  curGlyphKeys : List StyleKey
  deriving DecidableEq, Repr

/-- One iteration of the glyph loop of `Atlas::initPages`.

In the overflow branch, note that the C++ `textRun` pointer was taken before
the page was closed; the `std::move` chain keeps the pointed-to run alive
inside the page just pushed onto `pages`, so the triggering glyph's draw entry
is appended to the run list of the *closed* page (at the position returned by
the fresh packer), while the recorded locator carries the incremented page
index. -/
def initPagesStep (scale : ℚ) (maxPageSize : Int) (s : BuildState) (g : Glyph) : BuildState :=
  let k := ComputeStyleKey g
  let acc :=
    match findIdxD k s.styleKeys with
    | some i => (s.styleKeys, s.textRuns, i)
    | none => (s.styleKeys ++ [k], s.textRuns ++ [CreateTextRun g], s.textRuns.length)
  let styleKeys1 := acc.1
  let textRuns1 := acc.2.1
  let runIdx := acc.2.2
  let wh := glyphPackSize g
  let origin := glyphDrawOrigin g
  let packWidth := s.pack.width
  let packHeight := s.pack.height
  let res := s.pack.addRect wh.1 wh.2
  let point := res.1
  let pack1 := res.2
  if pack1.width > maxPageSize ∨ pack1.height > maxPageSize then
    let res2 := pack1.reset.addRect wh.1 wh.2
    let point2 := res2.1
    let pack2 := res2.2
    let page : Page := { textRuns := appendGlyph runIdx g.glyphID point2 origin textRuns1,
                         width := ⌈(packWidth : ℚ) * scale⌉,
                         height := ⌈(packHeight : ℚ) * scale⌉ }
    let pageIndex1 := s.pageIndex + 1
    { styleKeys := [],
      textRuns := [],
      pack := pack2,
      pages := s.pages ++ [page],
      pageIndex := pageIndex1,
      glyphLocators := upsert (g.computeAtlasKey g.style)
        (mkLocator pageIndex1 point2 wh.1 wh.2 scale) s.glyphLocators,
      closedGlyphKeys := s.closedGlyphKeys ++ [s.curGlyphKeys ++ [k]],
      curGlyphKeys := [] }
  else
    { styleKeys := styleKeys1,
      textRuns := appendGlyph runIdx g.glyphID point origin textRuns1,
      pack := pack1,
      pages := s.pages,
      pageIndex := s.pageIndex,
      glyphLocators := upsert (g.computeAtlasKey g.style)
        (mkLocator s.pageIndex point wh.1 wh.2 scale) s.glyphLocators,
      closedGlyphKeys := s.closedGlyphKeys,
      curGlyphKeys := s.curGlyphKeys ++ [k] }

/-- The glyph loop of `Atlas::initPages` as a left fold. -/
def initPagesLoop (scale : ℚ) (maxPageSize : Int) (s : BuildState) (glyphs : List Glyph) :
    BuildState :=
  glyphs.foldl (initPagesStep scale maxPageSize) s

/-- The state at entry of `Atlas::initPages`: empty accumulators and a freshly
constructed `RectanglePack(scale)`. -/
def BuildState.init (scale : ℚ) : BuildState :=
  ⟨[], [], RectanglePack.make scale, [], 0, [], [], []⟩

/-- The unconditional close of the in-progress page after the loop
(last four lines of `Atlas::initPages`). -/
def BuildState.close (scale : ℚ) (s : BuildState) : BuildState :=
  { s with
    pages := s.pages ++ [{ textRuns := s.textRuns,
                           width := ⌈(s.pack.width : ℚ) * scale⌉,
                           height := ⌈(s.pack.height : ℚ) * scale⌉ }],
    closedGlyphKeys := s.closedGlyphKeys ++ [s.curGlyphKeys] }

/-- `Atlas::initPages` in full: `maxPageSize = int(floor(maxTextureSize /
scale))`, the glyph loop, then the final page close. -/
def initPagesRun (glyphs : List Glyph) (scale : ℚ) (maxTextureSize : Int) : BuildState :=
  let maxPageSize : Int := cppTrunc ⌊(maxTextureSize : ℚ) / scale⌋
  BuildState.close scale (initPagesLoop scale maxPageSize (BuildState.init scale) glyphs)

/-! ## `Atlas` and `TextAtlas` -/

/-- `pag::Atlas`: its pages and the glyph-locator map. -/
structure Atlas where
  pages : List Page
  glyphLocators : List (AtlasKey × AtlasLocator)
  deriving DecidableEq, Repr

/-- The observable result of `Atlas::initPages` on a fresh atlas. -/
def Atlas.initPages (glyphs : List Glyph) (scale : ℚ) (maxTextureSize : Int) : Atlas :=
  let s := initPagesRun glyphs scale maxTextureSize
  ⟨s.pages, s.glyphLocators⟩

/-- `Atlas::Make` (the GPU context and the `draw` pass are external and do not
affect the packing-observable fields). -/
def Atlas.Make (scale : ℚ) (glyphs : List Glyph) (maxTextureSize : Int) : Option Atlas :=
  match glyphs with
  | [] => none
  | g0 :: _ =>
    if g0.font.size * scale > 256 then none
    else some (Atlas.initPages glyphs scale maxTextureSize)

/-- `Atlas::getLocator`: look the style-aware atlas key up in the map;
the C++ bool-plus-out-parameter protocol is an `Option`. -/
def Atlas.getLocator (a : Atlas) (g : Glyph) (style : TextStyle) : Option AtlasLocator :=
  alistLookup (g.computeAtlasKey style) a.glyphLocators

/-- `pag::TextAtlas`: the two owned atlases (the color one may be null). -/
structure TextAtlas where
  id : ℕ
  maskAtlas : Atlas
  colorAtlas : Option Atlas
  scale : ℚ
  deriving DecidableEq, Repr

/-- `TextAtlas::getLocator`. -/
def TextAtlas.getLocator (ta : TextAtlas) (g : Glyph) (style : TextStyle) :
    Option AtlasLocator :=
  if g.font.hasColor then
    match ta.colorAtlas with
    | some ca =>
      match ca.getLocator g style with
      | some loc => some { loc with pageIndex := loc.pageIndex + ta.maskAtlas.pages.length }
      | none => none
    | none => none
  else
    ta.maskAtlas.getLocator g style

/-- `TextAtlas::getAtlasTexture`: unified page-index dispatch over the mask
atlas's pages first, then the color atlas's. -/
def TextAtlas.getAtlasTexture (ta : TextAtlas) (pageIndex : ℕ) : Option ℕ :=
  if h : pageIndex < ta.maskAtlas.pages.length then
    some (ta.maskAtlas.pages.get ⟨pageIndex, h⟩).texture
  else
    let pageIndex2 := pageIndex - ta.maskAtlas.pages.length
    match ta.colorAtlas with
    | some ca =>
      if h2 : pageIndex2 < ca.pages.length then some (ca.pages.get ⟨pageIndex2, h2⟩).texture
      else none
    | none => none

/-! ## `Shape::MakeFrom` (Shape.cpp) -/

/-- The part of `pag::Path` observable here: its emptiness, plus an opaque
content id so distinct paths stay distinct. -/
structure Path where
  contentID : ℕ
  isEmpty : Bool
  deriving DecidableEq, Repr

/-- An RGBA color (`pag::Color4f`). -/
structure Color4f where
  r : ℚ
  g : ℚ
  b : ℚ
  a : ℚ
  deriving DecidableEq, Repr

/-- A shader value: either an externally built gradient shader (opaque handle)
or the solid-color shader of `Shader::MakeColorShader`. -/
inductive Shader where
  | external (id : ℕ)
  | color (c : Color4f)
  deriving DecidableEq, Repr

/-- Modelled from the spec: the gradient fill type enum used by
`Shape::MakeFrom`; the code only discriminates `Linear` against the rest. -/
inductive GradientFillType where
  | Linear
  | Radial
  deriving DecidableEq, Repr

/-- `pag::GradientPaint` as consumed by `Shape::MakeFrom`. -/
structure GradientPaint where
  gradientType : GradientFillType
  startPoint : ℚ × ℚ
  endPoint : ℚ × ℚ
  colors : List Color4f
  positions : List ℚ
  deriving DecidableEq, Repr

/-- The paint state a `Shape` is constructed with: `MakeFrom(path, color)`
sets a color, `MakeFrom(path, gradient)` sets a shader. -/
structure ShapePaint where
  color : Option Color4f
  shader : Option Shader
  deriving DecidableEq, Repr

/-- The `Shape` graphic: the path plus the paint it will be drawn with. -/
structure ShapeG where
  path : Path
  paint : ShapePaint
  deriving DecidableEq, Repr

/-- `Shape::MakeFrom(const Path&, Color4f)`: null on an empty path, otherwise
a shape painted with the solid color. -/
def Shape.MakeFromColor (path : Path) (color : Color4f) : Option ShapeG :=
  if path.isEmpty then none
  else some ⟨path, { color := some color, shader := none }⟩

/-- `Shape::MakeFrom(const Path&, const GradientPaint&)`.

The gradient shader factories (`Shader::MakeLinearGradient`, and the
composition of `Point::Distance` with `Shader::MakeRadialGradient`) are
external collaborators that may fail; they are passed in as parameters
`mkLinear` / `mkRadial`.  `colors.back()` is undefined on an empty color list
in C++; it is modelled with a default so the definition stays total. -/
def Shape.MakeFromGradient (mkLinear mkRadial : GradientPaint → Option Shader)
    (path : Path) (gradient : GradientPaint) : Option ShapeG :=
  if path.isEmpty then none
  else
    let shader :=
      if gradient.gradientType = GradientFillType.Linear then mkLinear gradient
      else mkRadial gradient
    let shader2 :=
      match shader with
      | some sh => sh
      | none => Shader.color (gradient.colors.getLastD ⟨0, 0, 0, 0⟩)
    some ⟨path, { color := none, shader := some shader2 }⟩

/-! ## Specification-side definitions -/

/-- First occurrences of a list's elements, in order of first appearance
(auxiliary: `seen` holds the elements already emitted). -/
def firstOccurAux {α : Type} [DecidableEq α] (seen : List α) : List α → List α
  | [] => []
  | a :: l => if a ∈ seen then firstOccurAux seen l else a :: firstOccurAux (a :: seen) l

/-- The distinct elements of a list in order of first appearance; used to
state the style-grouping property (one run per distinct style key, runs
ordered by first appearance). -/
def firstOccur {α : Type} [DecidableEq α] (l : List α) : List α :=
  firstOccurAux [] l

/-- Pointwise correspondence between a page list and the per-page ghost
glyph-key traces: each page holds exactly one run per distinct style key among
the glyphs drawn on it. -/
def pagesMatch : List Page → List (List StyleKey) → Prop
  | [], [] => True
  | p :: ps, ks :: kss => p.textRuns.length = (firstOccur ks).length ∧ pagesMatch ps kss
  | _, _ => False

/-- The number of color pages of a `TextAtlas` (0 when the color atlas is
absent). -/
def TextAtlas.colorPageCount (ta : TextAtlas) : ℕ :=
  match ta.colorAtlas with
  | some ca => ca.pages.length
  | none => 0

/-- The padded bitmap size as claim C2 words it: stroke inflation whenever the
style includes stroking, i.e. for `Stroke` *and* `StrokeAndFill`.  Written
from the claim's words, to be compared against `glyphPackSize` (the source
translation). -/
def claimPaddedSizeC2 (g : Glyph) : Int × Int :=
  let s : Int :=
    if g.style = TextStyle.Stroke ∨ g.style = TextStyle.StrokeAndFill
    then ⌈g.strokeWidth⌉ else 0
  (cppTrunc g.bounds.w + 2 * s, cppTrunc g.bounds.h + 2 * s)

/-! ## Concrete inputs used by counterexamples and witnesses -/

/-- A monochrome `Fill` glyph with integer ink bounds of the given size. -/
def mkG (id : ℕ) (w h : ℚ) : Glyph :=
  { font := { size := 20, typefaceID := 7, hasColor := false },
    glyphID := id, style := TextStyle.Fill, strokeWidth := 0,
    bounds := ⟨0, 0, w, h⟩ }

/-- Overflow probe: a 1×1 glyph followed by a 5×5 glyph, packed with
`maxTextureSize = 10` at scale 1 (the second glyph triggers the page split). -/
def overflowGlyphs : List Glyph := [mkG 1 1 1, mkG 2 5 5]

/-- Overlap probe: glyphs of sizes 1×5, 1×1, 2×2, 2×1 (all on one page). -/
def overlapGlyphs : List Glyph := [mkG 1 1 5, mkG 2 1 1, mkG 3 2 2, mkG 4 2 1]

/-- Coverage probe: glyphs of sizes 1×10, 1×1, 5×10 (all on one page). -/
def coverageGlyphs : List Glyph := [mkG 1 1 10, mkG 2 1 1, mkG 3 5 10]

/-- A `StrokeAndFill` glyph with stroke width 2 and 10×10 ink bounds. -/
def strokeAndFillGlyph : Glyph :=
  { font := { size := 20, typefaceID := 7, hasColor := false },
    glyphID := 1, style := TextStyle.StrokeAndFill, strokeWidth := 2,
    bounds := ⟨0, 0, 10, 10⟩ }

/-- A `Stroke` glyph with stroke width 2 and 10×10 ink bounds. -/
def strokeGlyph : Glyph :=
  { font := { size := 20, typefaceID := 7, hasColor := false },
    glyphID := 1, style := TextStyle.Stroke, strokeWidth := 2,
    bounds := ⟨0, 0, 10, 10⟩ }

/-- A color-capable glyph (color typeface), used by the façade witnesses. -/
def colorGlyph : Glyph :=
  { font := { size := 20, typefaceID := 9, hasColor := true },
    glyphID := 3, style := TextStyle.Fill, strokeWidth := 0,
    bounds := ⟨0, 0, 4, 4⟩ }

/-- A one-page atlas whose single page carries texture handle `t`, with the
given locator map. -/
def onePageAtlas (t : ℕ) (locs : List (AtlasKey × AtlasLocator)) : Atlas :=
  ⟨[{ textRuns := [], width := 16, height := 16, texture := t }], locs⟩

/-- A façade with one mask page (texture 10) and one color page (texture 20);
the color atlas maps `colorGlyph` to page 0 at rectangle (3,3,4,4). -/
def sampleTextAtlas : TextAtlas :=
  { id := 1,
    maskAtlas := onePageAtlas 10 [((mkG 1 1 1).computeAtlasKey TextStyle.Fill,
                                   ⟨0, ⟨3, 3, 1, 1⟩⟩)],
    colorAtlas := some (onePageAtlas 20 [(colorGlyph.computeAtlasKey TextStyle.Fill,
                                          ⟨0, ⟨3, 3, 4, 4⟩⟩)]),
    scale := 1 }

/-- A façade with one mask page and no color atlas. -/
def maskOnlyTextAtlas : TextAtlas :=
  { id := 2,
    maskAtlas := onePageAtlas 10 [],
    colorAtlas := none,
    scale := 1 }

/-- A nonempty path and an empty path for the `Shape::MakeFrom` witnesses. -/
def somePath : Path := ⟨1, false⟩

/-- An empty path. -/
def emptyPath : Path := ⟨2, true⟩

/-- A linear gradient whose colors end in opaque red. -/
def sampleGradient : GradientPaint :=
  { gradientType := GradientFillType.Linear,
    startPoint := (0, 0), endPoint := (1, 0),
    colors := [⟨0, 0, 1, 1⟩, ⟨1, 0, 0, 1⟩],
    positions := [0, 1] }

/-! ## Theorems -/

/-- C3: `Atlas::Make` returns no atlas exactly when the glyph list is empty
or the first glyph's nominal font size times `scale` exceeds 256; every other
input produces an atlas. -/
theorem claim_C3_make_none_iff (scale : ℚ) (glyphs : List Glyph) (maxTextureSize : Int) :
    Atlas.Make scale glyphs maxTextureSize = none ↔
      glyphs = [] ∨ ∃ g0 l, glyphs = g0 :: l ∧ g0.font.size * scale > 256 := by
  cases glyphs with
  | nil => simp [Atlas.Make]
  | cons g l =>
    simp only [Atlas.Make]
    by_cases h : g.font.size * scale > 256
    · simp only [if_pos h, true_iff, eq_self_iff_true]
      exact Or.inr ⟨g, l, rfl, h⟩
    · simp only [if_neg h]
      constructor
      · intro hc
        exact absurd hc (by simp)
      · rintro (hc | ⟨g0, l0, heq, hgt⟩)
        · exact absurd hc (by simp)
        · injection heq with h1 h2
          subst h1
          exact absurd hgt h

/-- C6: unified page indexing of `TextAtlas::getAtlasTexture`: indices below
the mask page count resolve to the mask atlas, the next `colorPageCount`
indices resolve to the color atlas shifted down by the mask page count, and
all larger indices yield no texture. -/
theorem claim_C6_texture_dispatch (ta : TextAtlas) (i : ℕ) :
    (∀ h : i < ta.maskAtlas.pages.length,
        ta.getAtlasTexture i = some ((ta.maskAtlas.pages.get ⟨i, h⟩).texture)) ∧
    (∀ ca, ta.colorAtlas = some ca →
        ta.maskAtlas.pages.length ≤ i →
        ∀ h : i - ta.maskAtlas.pages.length < ca.pages.length,
        ta.getAtlasTexture i =
          some ((ca.pages.get ⟨i - ta.maskAtlas.pages.length, h⟩).texture)) ∧
    (ta.maskAtlas.pages.length + ta.colorPageCount ≤ i →
        ta.getAtlasTexture i = none) := by
  refine ⟨?_, ?_, ?_⟩
  · intro h
    simp [TextAtlas.getAtlasTexture, h]
  · intro ca hca hle h
    unfold TextAtlas.getAtlasTexture
    rw [dif_neg (by omega)]
    simp only [hca]
    rw [dif_pos h]
  · intro hge
    have hC : ta.colorPageCount = ta.colorPageCount := rfl
    unfold TextAtlas.getAtlasTexture
    rw [dif_neg (by have := Nat.zero_le ta.colorPageCount; omega)]
    cases hca : ta.colorAtlas with
    | none => simp
    | some ca =>
      have hcc : ta.colorPageCount = ca.pages.length := by
        unfold TextAtlas.colorPageCount
        rw [hca]
      rw [hcc] at hge
      simp only []
      rw [dif_neg (by omega)]

/-- C7: `TextAtlas::getLocator` routing: color-capable glyphs are resolved
against the color atlas only (no fallback to the mask atlas on absence or
miss), with the page index offset by the mask page count on success;
non-color glyphs are resolved against the mask atlas. -/
theorem claim_C7_locator_routing (ta : TextAtlas) (g : Glyph) (style : TextStyle) :
    (g.font.hasColor = true →
       (ta.colorAtlas = none → ta.getLocator g style = none) ∧
       (∀ ca, ta.colorAtlas = some ca → ca.getLocator g style = none →
          ta.getLocator g style = none) ∧
       (∀ ca loc, ta.colorAtlas = some ca → ca.getLocator g style = some loc →
          ta.getLocator g style =
            some { loc with pageIndex := loc.pageIndex + ta.maskAtlas.pages.length })) ∧
    (g.font.hasColor = false →
       ta.getLocator g style = ta.maskAtlas.getLocator g style) := by
  unfold TextAtlas.getLocator
  constructor
  · intro hc
    refine ⟨?_, ?_, ?_⟩
    · intro hnone
      simp [hc, hnone]
    · intro ca hca hmiss
      simp [hc, hca, hmiss]
    · intro ca loc hca hhit
      simp [hc, hca, hhit]
  · intro hc
    simp [hc]

/-- C10: `Shape::MakeFrom` returns null exactly on an empty path (both the
solid-color and the gradient overload); when the gradient shader factory
fails, the gradient overload still produces a shape painted with a
solid-color shader of the gradient's last color. -/
theorem claim_C10_shape_make (mkLinear mkRadial : GradientPaint → Option Shader)
    (path : Path) (color : Color4f) (gradient : GradientPaint) :
    (Shape.MakeFromColor path color = none ↔ path.isEmpty = true) ∧
    (Shape.MakeFromGradient mkLinear mkRadial path gradient = none ↔ path.isEmpty = true) ∧
    (path.isEmpty = false →
       (if gradient.gradientType = GradientFillType.Linear then mkLinear gradient
        else mkRadial gradient) = none →
       ∀ h : gradient.colors ≠ [],
       Shape.MakeFromGradient mkLinear mkRadial path gradient =
         some ⟨path, { color := none,
                       shader := some (Shader.color (gradient.colors.getLast h)) }⟩) := by
  refine ⟨?_, ?_, ?_⟩
  · unfold Shape.MakeFromColor
    by_cases h : path.isEmpty <;> simp [h]
  · unfold Shape.MakeFromGradient
    by_cases h : path.isEmpty <;> simp [h]
  · intro hne hfail h
    unfold Shape.MakeFromGradient
    rw [if_neg (by simp [hne])]
    simp [hfail, List.getLastD_eq_getLast?, List.getLast?_eq_getLast _ h]

/-- C6 witness: the dispatch theorem applied to a concrete façade with one
mask page (texture 10) and one color page (texture 20), at indices 0, 1, 2. -/
theorem claim_C6_texture_dispatch_witness :
    sampleTextAtlas.getAtlasTexture 0 = some 10 ∧
    sampleTextAtlas.getAtlasTexture 1 = some 20 ∧
    sampleTextAtlas.getAtlasTexture 2 = none :=
  ⟨((claim_C6_texture_dispatch sampleTextAtlas 0).1 (by decide)).trans (by decide),
   ((claim_C6_texture_dispatch sampleTextAtlas 1).2.1
      (onePageAtlas 20 [(colorGlyph.computeAtlasKey TextStyle.Fill, ⟨0, ⟨3, 3, 4, 4⟩⟩)])
      rfl (by decide) (by decide)).trans (by decide),
   (claim_C6_texture_dispatch sampleTextAtlas 2).2.2 (by decide)⟩

/-- C7 witness: the routing theorem applied to concrete façades — a color
glyph hitting the color atlas (index offset by the mask page count), a color
glyph with no color atlas (no fallback), and a mask glyph. -/
theorem claim_C7_locator_routing_witness :
    sampleTextAtlas.getLocator colorGlyph TextStyle.Fill = some ⟨1, ⟨3, 3, 4, 4⟩⟩ ∧
    maskOnlyTextAtlas.getLocator colorGlyph TextStyle.Fill = none ∧
    sampleTextAtlas.getLocator (mkG 1 1 1) TextStyle.Fill = some ⟨0, ⟨3, 3, 1, 1⟩⟩ :=
  ⟨((claim_C7_locator_routing sampleTextAtlas colorGlyph TextStyle.Fill).1 rfl).2.2
      (onePageAtlas 20 [(colorGlyph.computeAtlasKey TextStyle.Fill, ⟨0, ⟨3, 3, 4, 4⟩⟩)])
      ⟨0, ⟨3, 3, 4, 4⟩⟩ rfl (by decide),
   ((claim_C7_locator_routing maskOnlyTextAtlas colorGlyph TextStyle.Fill).1 rfl).1 rfl,
   ((claim_C7_locator_routing sampleTextAtlas (mkG 1 1 1) TextStyle.Fill).2 rfl).trans
      (by decide)⟩

/-- C10 witness: a failing linear-gradient factory on a nonempty path yields
the shape painted with the solid color of the gradient's last color (opaque
red); the empty path yields none in both overloads. -/
theorem claim_C10_shape_make_witness :
    Shape.MakeFromColor emptyPath ⟨1, 1, 1, 1⟩ = none ∧
    Shape.MakeFromGradient (fun _ => none) (fun _ => none) emptyPath sampleGradient = none ∧
    Shape.MakeFromGradient (fun _ => none) (fun _ => none) somePath sampleGradient =
      some ⟨somePath, { color := none, shader := some (Shader.color ⟨1, 0, 0, 1⟩) }⟩ :=
  ⟨(claim_C10_shape_make (fun _ => none) (fun _ => none) emptyPath ⟨1, 1, 1, 1⟩
      sampleGradient).1.mpr rfl,
   (claim_C10_shape_make (fun _ => none) (fun _ => none) emptyPath ⟨1, 1, 1, 1⟩
      sampleGradient).2.1.mpr rfl,
   ((claim_C10_shape_make (fun _ => none) (fun _ => none) somePath ⟨1, 1, 1, 1⟩
      sampleGradient).2.2 rfl rfl (by decide)).trans (by decide)⟩

/-- C2 counterexample: for a `StrokeAndFill` glyph with stroke width 2 and
10×10 ink bounds, the size actually requested from the packer (10×10, no
inflation — the code inflates only for `Stroke`) differs from the size the
claim predicts (14×14, inflation for any stroking style). -/
theorem claim_C2_counterexample :
    glyphPackSize strokeAndFillGlyph ≠ claimPaddedSizeC2 strokeAndFillGlyph := by
  norm_num [glyphPackSize, claimPaddedSizeC2, strokeInt, cppTrunc, strokeAndFillGlyph]
  decide

/-- C2 amended: the padded bitmap size is the truncated ink bounds inflated by
`2 × ceil(strokeWidth)` on each axis exactly when the style is `Stroke`; for
`Fill` and `StrokeAndFill` there is no inflation.  (`initPagesStep` requests
exactly `glyphPackSize g` from `RectanglePack::addRect`.) -/
theorem claim_C2_amended_pack_size (g : Glyph) :
    (g.style = TextStyle.Stroke →
       glyphPackSize g = (cppTrunc g.bounds.w + 2 * ⌈g.strokeWidth⌉,
                          cppTrunc g.bounds.h + 2 * ⌈g.strokeWidth⌉)) ∧
    (g.style ≠ TextStyle.Stroke →
       glyphPackSize g = (cppTrunc g.bounds.w, cppTrunc g.bounds.h)) := by
  constructor <;> intro h <;> simp [glyphPackSize, strokeInt, h]

/-- C2 witness: the amended size computation evaluated on a `Stroke` glyph
(inflated) and a `StrokeAndFill` glyph (not inflated). -/
theorem claim_C2_amended_pack_size_witness :
    glyphPackSize strokeGlyph = (14, 14) ∧ glyphPackSize strokeAndFillGlyph = (10, 10) := by
  constructor
  · rw [(claim_C2_amended_pack_size strokeGlyph).1 rfl]
    norm_num [cppTrunc, strokeGlyph]
  · rw [(claim_C2_amended_pack_size strokeAndFillGlyph).2 (by decide)]
    norm_num [cppTrunc, strokeAndFillGlyph]

/-- C1, evaluated at the failing input (`overflowGlyphs` with
`maxTextureSize = 10`, scale 1): the 5×5 glyph overflows, the current page is
closed with the pre-overflow extent 7×7, the packer is reset and the locator
carries the incremented page index 1 with the fresh-packer rectangle — but
the glyph's draw entry (`glyphID` 2) is appended to the run of the *closed*
page 0, and the fresh page's run list stays empty.  The glyph therefore *is*
placed (drawn) on the page that was current when it arrived, contradicting
the claim. -/
theorem claim_C1_bug_eval :
    (Atlas.initPages overflowGlyphs 1 10).pages.map
        (fun p => (p.width, p.height, p.textRuns.map (fun r => r.glyphIDs))) =
      [(7, 7, [[1, 2]]), (11, 11, [])] ∧
    (Atlas.initPages overflowGlyphs 1 10).getLocator (mkG 2 5 5) TextStyle.Fill =
      some ⟨1, ⟨3, 3, 5, 5⟩⟩ := by
  norm_num [Atlas.initPages, Atlas.getLocator, initPagesRun, initPagesLoop, initPagesStep,
    BuildState.init, BuildState.close, RectanglePack.make, RectanglePack.addRect,
    RectanglePack.reset, cppTrunc, glyphPackSize, strokeInt, glyphDrawOrigin, appendGlyph,
    modifyIdx, findIdxD, alistLookup, upsert, ComputeStyleKey, CreateTextRun, mkLocator,
    Glyph.computeAtlasKey, mkG, QRect.scaleBy, overflowGlyphs]

/-- C4, evaluated at the failing input (`overlapGlyphs`, scale 1, max texture
size 2048, all four glyphs on page 0): the packer places the 2×2 glyph at
(7,7) and the 2×1 glyph at (3,11); with padding 3 their padded rectangles
7×7+5×5 and 3×11+5×4 intersect (on the strip x∈[7,8), y∈[11,12)). -/
theorem claim_C4_bug_eval :
    (Atlas.initPages overlapGlyphs 1 2048).getLocator (mkG 3 2 2) TextStyle.Fill =
        some ⟨0, ⟨7, 7, 2, 2⟩⟩ ∧
    (Atlas.initPages overlapGlyphs 1 2048).getLocator (mkG 4 2 1) TextStyle.Fill =
        some ⟨0, ⟨3, 11, 2, 1⟩⟩ ∧
    (RectanglePack.make 1).padding = 3 ∧
    QRect.intersects ⟨7, 7, 2 + 3, 2 + 3⟩ ⟨3, 11, 2 + 3, 1 + 3⟩ := by
  norm_num [Atlas.initPages, Atlas.getLocator, initPagesRun, initPagesLoop, initPagesStep,
    BuildState.init, BuildState.close, RectanglePack.make, RectanglePack.addRect,
    RectanglePack.reset, cppTrunc, glyphPackSize, strokeInt, glyphDrawOrigin, appendGlyph,
    modifyIdx, findIdxD, alistLookup, upsert, ComputeStyleKey, CreateTextRun, mkLocator,
    Glyph.computeAtlasKey, mkG, QRect.scaleBy, QRect.intersects, overlapGlyphs]

/-- C5, evaluated at the failing input (`coverageGlyphs`, scale 1, max texture
size 2048): the build succeeds with a single 15×16 page, yet `getLocator` for
the 5×10 glyph reports page 0 with rectangle (7,7,5,10), whose bottom edge
7+10 = 17 exceeds the page height 16 — the rectangle does not lie within the
reported page. -/
theorem claim_C5_bug_eval :
    Atlas.Make 1 coverageGlyphs 2048 = some (Atlas.initPages coverageGlyphs 1 2048) ∧
    (Atlas.initPages coverageGlyphs 1 2048).pages.map (fun p => (p.width, p.height)) =
      [(15, 16)] ∧
    (Atlas.initPages coverageGlyphs 1 2048).getLocator (mkG 3 5 10) TextStyle.Fill =
      some ⟨0, ⟨7, 7, 5, 10⟩⟩ ∧
    ¬((7 : ℚ) + 10 ≤ 16) := by
  norm_num [Atlas.Make, Atlas.initPages, Atlas.getLocator, initPagesRun, initPagesLoop,
    initPagesStep, BuildState.init, BuildState.close, RectanglePack.make, RectanglePack.addRect,
    RectanglePack.reset, cppTrunc, glyphPackSize, strokeInt, glyphDrawOrigin, appendGlyph,
    modifyIdx, findIdxD, alistLookup, upsert, ComputeStyleKey, CreateTextRun, mkLocator,
    Glyph.computeAtlasKey, mkG, QRect.scaleBy, coverageGlyphs]

/-- C8 counterexample: a stream containing the same glyph (and style) twice.
After the first occurrence is processed, the atlas under construction binds
the key to the locator at (3,3); after the duplicate is processed, the same
key is bound to a different locator at (7,3) — the assignment did change
during the atlas's lifetime, contradicting the claim for duplicate streams. -/
theorem claim_C8_counterexample :
    alistLookup ((mkG 1 1 1).computeAtlasKey TextStyle.Fill)
        (initPagesLoop 1 2048 (BuildState.init 1) [mkG 1 1 1]).glyphLocators =
      some ⟨0, ⟨3, 3, 1, 1⟩⟩ ∧
    alistLookup ((mkG 1 1 1).computeAtlasKey TextStyle.Fill)
        (initPagesLoop 1 2048 (BuildState.init 1) [mkG 1 1 1, mkG 1 1 1]).glyphLocators =
      some ⟨0, ⟨7, 3, 1, 1⟩⟩ ∧
    (⟨0, ⟨3, 3, 1, 1⟩⟩ : AtlasLocator) ≠ ⟨0, ⟨7, 3, 1, 1⟩⟩ := by
  norm_num [initPagesLoop, initPagesStep, BuildState.init, RectanglePack.make,
    RectanglePack.addRect, RectanglePack.reset, cppTrunc, glyphPackSize, strokeInt,
    glyphDrawOrigin, appendGlyph, modifyIdx, findIdxD, alistLookup, upsert, ComputeStyleKey,
    CreateTextRun, mkLocator, Glyph.computeAtlasKey, mkG, QRect.scaleBy]

/-- Insert-or-assign leaves the bindings of every other key unchanged. -/
theorem alistLookup_upsert_ne {κ ν : Type} [DecidableEq κ] (k k' : κ) (v : ν)
    (m : List (κ × ν)) (h : k ≠ k') :
    alistLookup k' (upsert k v m) = alistLookup k' m := by
  induction m with
  | nil => simp [upsert, alistLookup, h]
  | cons p m ih =>
    obtain ⟨k0, v0⟩ := p
    by_cases hk : k0 = k
    · subst hk
      simp [upsert, alistLookup, h]
    · simp only [upsert, if_neg hk, alistLookup]
      by_cases hk' : k0 = k'
      · simp [hk']
      · simp [hk', ih]

/-- Processing one glyph only ever rebinds that glyph's own atlas key. -/
theorem initPagesStep_locator_other (scale : ℚ) (maxPageSize : Int) (s : BuildState)
    (g : Glyph) (k : AtlasKey) (h : g.computeAtlasKey g.style ≠ k) :
    alistLookup k (initPagesStep scale maxPageSize s g).glyphLocators =
      alistLookup k s.glyphLocators := by
  unfold initPagesStep
  dsimp only
  split <;> simp [alistLookup_upsert_ne _ _ _ _ h]

/-- Processing a stream of glyphs none of whose atlas keys equals `k` leaves
the binding of `k` unchanged. -/
theorem initPagesLoop_locator_other (scale : ℚ) (maxPageSize : Int) (s : BuildState)
    (l : List Glyph) (k : AtlasKey) (h : ∀ g ∈ l, g.computeAtlasKey g.style ≠ k) :
    alistLookup k (initPagesLoop scale maxPageSize s l).glyphLocators =
      alistLookup k s.glyphLocators := by
  induction l generalizing s with
  | nil => rfl
  | cons g l ih =>
    have hg : g.computeAtlasKey g.style ≠ k := h g (by simp)
    have hl : ∀ g' ∈ l, g'.computeAtlasKey g'.style ≠ k := fun g' hm => h g' (by simp [hm])
    calc alistLookup k (initPagesLoop scale maxPageSize s (g :: l)).glyphLocators
        = alistLookup k
            (initPagesLoop scale maxPageSize (initPagesStep scale maxPageSize s g) l).glyphLocators := rfl
      _ = alistLookup k (initPagesStep scale maxPageSize s g).glyphLocators := ih _ hl
      _ = alistLookup k s.glyphLocators := initPagesStep_locator_other _ _ _ _ _ hg

/-- C8 amended: once the last occurrence of a glyph+style key has been
processed, its binding never changes: extending the input stream with glyphs
whose atlas keys all differ from `k` (and the final page close) leaves the
locator bound to `k` untouched.  (The claim as stated fails for streams that
repeat a key: each occurrence overwrites the binding, see the
counterexample.) -/
theorem claim_C8_amended_last_binding (glyphs l2 : List Glyph) (scale : ℚ)
    (maxTextureSize : Int) (k : AtlasKey)
    (h : ∀ g ∈ l2, g.computeAtlasKey g.style ≠ k) :
    alistLookup k (initPagesRun (glyphs ++ l2) scale maxTextureSize).glyphLocators =
      alistLookup k (initPagesRun glyphs scale maxTextureSize).glyphLocators := by
  unfold initPagesRun BuildState.close
  simp only [initPagesLoop, List.foldl_append]
  exact initPagesLoop_locator_other _ _ _ _ _ h

/-- C8 witness: appending a different glyph (different atlas key) to the
stream does not change the binding created by the first glyph's last
occurrence. -/
theorem claim_C8_amended_last_binding_witness :
    (∀ g ∈ [mkG 2 1 1], g.computeAtlasKey g.style ≠ (mkG 1 1 1).computeAtlasKey TextStyle.Fill) ∧
    alistLookup ((mkG 1 1 1).computeAtlasKey TextStyle.Fill)
        (initPagesRun ([mkG 1 1 1] ++ [mkG 2 1 1]) 1 2048).glyphLocators =
      alistLookup ((mkG 1 1 1).computeAtlasKey TextStyle.Fill)
        (initPagesRun [mkG 1 1 1] 1 2048).glyphLocators :=
  ⟨by decide,
   claim_C8_amended_last_binding [mkG 1 1 1] [mkG 2 1 1] 1 2048
     ((mkG 1 1 1).computeAtlasKey TextStyle.Fill) (by decide)⟩

/-- Membership in `firstOccurAux`: the emitted elements are exactly the list
elements not already seen. -/
theorem mem_firstOccurAux {α : Type} [DecidableEq α] (a : α) (l : List α) :
    ∀ seen, a ∈ firstOccurAux seen l ↔ (a ∈ l ∧ a ∉ seen) := by
  induction l with
  | nil => intro seen; simp [firstOccurAux]
  | cons b l ih =>
    intro seen
    by_cases hab : a = b
    · subst hab
      by_cases hb : a ∈ seen
      · simp [firstOccurAux, hb, ih]
      · simp [firstOccurAux, hb, ih]
    · by_cases hb : b ∈ seen
      · simp [firstOccurAux, hb, ih, hab]
      · simp [firstOccurAux, hb, ih, hab]

/-- An element occurs in `firstOccur l` exactly when it occurs in `l`. -/
theorem mem_firstOccur {α : Type} [DecidableEq α] (a : α) (l : List α) :
    a ∈ firstOccur l ↔ a ∈ l := by
  unfold firstOccur
  rw [mem_firstOccurAux]
  simp

/-- Appending one element to the scanned list appends it to the output iff it
is new. -/
theorem firstOccurAux_append_one {α : Type} [DecidableEq α] (a : α) (l : List α) :
    ∀ seen, firstOccurAux seen (l ++ [a]) =
      firstOccurAux seen l ++ (if a ∈ seen ∨ a ∈ l then [] else [a]) := by
  induction l with
  | nil =>
    intro seen
    by_cases h : a ∈ seen <;> simp [firstOccurAux, h]
  | cons b l ih =>
    intro seen
    rw [List.cons_append]
    by_cases hb : b ∈ seen
    · simp only [firstOccurAux, if_pos hb, ih seen, List.mem_cons]
      congr 1
      by_cases hab : a = b
      · subst hab
        simp [hb]
      · simp [hab]
    · simp only [firstOccurAux, if_neg hb, ih (b :: seen), List.mem_cons]
      have hcond : ((a = b ∨ a ∈ seen) ∨ a ∈ l) ↔ (a ∈ seen ∨ a = b ∨ a ∈ l) := by
        tauto
      rw [if_congr hcond rfl rfl]
      simp

/-- A repeated element does not change the first-occurrence list. -/
theorem firstOccur_append_mem {α : Type} [DecidableEq α] (a : α) (l : List α) (h : a ∈ l) :
    firstOccur (l ++ [a]) = firstOccur l := by
  unfold firstOccur
  rw [firstOccurAux_append_one]
  simp [h]

/-- A new element is appended to the first-occurrence list. -/
theorem firstOccur_append_not_mem {α : Type} [DecidableEq α] (a : α) (l : List α) (h : a ∉ l) :
    firstOccur (l ++ [a]) = firstOccur l ++ [a] := by
  unfold firstOccur
  rw [firstOccurAux_append_one]
  simp [h]

/-- `findIdxD` misses exactly on absent elements. -/
theorem findIdxD_eq_none {α : Type} [DecidableEq α] (a : α) (l : List α) :
    findIdxD a l = none ↔ a ∉ l := by
  induction l with
  | nil => simp [findIdxD]
  | cons b l ih =>
    by_cases h : b = a
    · subst h
      simp [findIdxD]
    · simp only [findIdxD, if_neg h, List.mem_cons]
      constructor
      · intro h1 hc
        have hnone : findIdxD a l = none := by
          cases hx : findIdxD a l with
          | none => rfl
          | some v => rw [hx] at h1; cases h1
        rcases hc with rfl | hc
        · exact h rfl
        · exact (ih.mp hnone) hc
      · intro h1
        have hnl : a ∉ l := fun hc => h1 (Or.inr hc)
        rw [ih.mpr hnl]
        rfl

/-- In-place update preserves the list's length. -/
theorem modifyIdx_length {α : Type} (f : α → α) (n : ℕ) (l : List α) :
    (modifyIdx f n l).length = l.length := by
  induction l generalizing n with
  | nil => cases n <;> rfl
  | cons a l ih =>
    cases n with
    | zero => rfl
    | succ n => simpa [modifyIdx] using ih n

/-- Appending a glyph's draw entry to one run preserves the run count. -/
theorem appendGlyph_length (i gid : ℕ) (point : Int × Int) (origin : ℚ × ℚ)
    (runs : List AtlasTextRun) :
    (appendGlyph i gid point origin runs).length = runs.length :=
  modifyIdx_length _ _ _

/-- Closing one more page with a matching key trace preserves the page/trace
correspondence. -/
theorem pagesMatch_append (ps : List Page) (kss : List (List StyleKey)) (p : Page)
    (ks : List StyleKey) (h : pagesMatch ps kss)
    (hp : p.textRuns.length = (firstOccur ks).length) :
    pagesMatch (ps ++ [p]) (kss ++ [ks]) := by
  induction ps generalizing kss with
  | nil =>
    cases kss with
    | nil => exact ⟨hp, trivial⟩
    | cons ks0 kss => exact h.elim
  | cons q ps ih =>
    cases kss with
    | nil => exact h.elim
    | cons ks0 kss =>
      obtain ⟨h1, h2⟩ := h
      exact ⟨h1, ih kss h2⟩

/-- Reading the page/trace correspondence back at every index. -/
theorem pagesMatch_get (ps : List Page) (kss : List (List StyleKey))
    (h : pagesMatch ps kss) :
    ps.length = kss.length ∧
    ∀ j (hp : j < ps.length) (hk : j < kss.length),
      (ps.get ⟨j, hp⟩).textRuns.length = (firstOccur (kss.get ⟨j, hk⟩)).length := by
  induction ps generalizing kss with
  | nil =>
    cases kss with
    | nil =>
      refine ⟨rfl, fun j hp hk => ?_⟩
      exact absurd hp (by simp)
    | cons ks0 kss => exact h.elim
  | cons q ps ih =>
    cases kss with
    | nil => exact h.elim
    | cons ks0 kss =>
      obtain ⟨h1, h2⟩ := h
      obtain ⟨hlen, hget⟩ := ih kss h2
      refine ⟨by simp [hlen], ?_⟩
      intro j hp hk
      cases j with
      | zero => exact h1
      | succ j => exact hget j (by simpa using hp) (by simpa using hk)

/-- One loop iteration preserves the grouping invariant: the live style-key
list is the first-occurrence list of the current page's ghost glyph keys, the
live run count equals the live key count, and every closed page matches its
ghost trace. -/
theorem initPagesStep_inv (scale : ℚ) (maxPageSize : Int) (s : BuildState) (g : Glyph)
    (h1 : s.styleKeys = firstOccur s.curGlyphKeys)
    (h2 : s.textRuns.length = s.styleKeys.length)
    (h3 : pagesMatch s.pages s.closedGlyphKeys) :
    (initPagesStep scale maxPageSize s g).styleKeys =
      firstOccur (initPagesStep scale maxPageSize s g).curGlyphKeys ∧
    (initPagesStep scale maxPageSize s g).textRuns.length =
      (initPagesStep scale maxPageSize s g).styleKeys.length ∧
    pagesMatch (initPagesStep scale maxPageSize s g).pages
      (initPagesStep scale maxPageSize s g).closedGlyphKeys := by
  unfold initPagesStep
  dsimp only
  rcases hf : findIdxD (ComputeStyleKey g) s.styleKeys with _ | i
  · have hk : ComputeStyleKey g ∉ s.styleKeys := (findIdxD_eq_none _ _).mp hf
    have hkc : ComputeStyleKey g ∉ s.curGlyphKeys := by
      intro hc
      exact hk (h1 ▸ (mem_firstOccur _ _).mpr hc)
    simp only [hf]
    split
    · refine ⟨rfl, rfl, ?_⟩
      apply pagesMatch_append _ _ _ _ h3
      rw [firstOccur_append_not_mem _ _ hkc]
      simp [appendGlyph_length, h2, h1]
    · refine ⟨?_, ?_, h3⟩
      · rw [firstOccur_append_not_mem _ _ hkc, h1]
      · simp [appendGlyph_length, h2]
  · have hk : ComputeStyleKey g ∈ s.styleKeys := by
      by_contra hc
      rw [(findIdxD_eq_none _ _).mpr hc] at hf
      cases hf
    have hkc : ComputeStyleKey g ∈ s.curGlyphKeys := (mem_firstOccur _ _).mp (h1 ▸ hk)
    simp only [hf]
    split
    · refine ⟨rfl, rfl, ?_⟩
      apply pagesMatch_append _ _ _ _ h3
      rw [firstOccur_append_mem _ _ hkc]
      simp [appendGlyph_length, h2, h1]
    · refine ⟨?_, ?_, h3⟩
      · rw [firstOccur_append_mem _ _ hkc, h1]
      · simp [appendGlyph_length, h2]

/-- The glyph loop preserves the grouping invariant. -/
theorem initPagesLoop_inv (scale : ℚ) (maxPageSize : Int) (l : List Glyph) :
    ∀ s : BuildState,
      s.styleKeys = firstOccur s.curGlyphKeys →
      s.textRuns.length = s.styleKeys.length →
      pagesMatch s.pages s.closedGlyphKeys →
      ((initPagesLoop scale maxPageSize s l).styleKeys =
         firstOccur (initPagesLoop scale maxPageSize s l).curGlyphKeys ∧
       (initPagesLoop scale maxPageSize s l).textRuns.length =
         (initPagesLoop scale maxPageSize s l).styleKeys.length ∧
       pagesMatch (initPagesLoop scale maxPageSize s l).pages
         (initPagesLoop scale maxPageSize s l).closedGlyphKeys) := by
  induction l with
  | nil => exact fun s h1 h2 h3 => ⟨h1, h2, h3⟩
  | cons g l ih =>
    intro s h1 h2 h3
    obtain ⟨k1, k2, k3⟩ := initPagesStep_inv scale maxPageSize s g h1 h2 h3
    exact ih (initPagesStep scale maxPageSize s g) k1 k2 k3

/-- C9: on every page produced by `Atlas::initPages`, the number of text runs
equals the number of distinct style keys among the glyphs drawn on that page
(the ghost trace `closedGlyphKeys` records those keys per page, and
`firstOccur` lists them in order of first appearance).  Since the live
style-key list is cleared on every page close, style-key sharing never
crosses a page boundary: each page's runs are counted against its own keys
only. -/
theorem claim_C9_style_grouping (glyphs : List Glyph) (scale : ℚ) (maxTextureSize : Int) :
    (initPagesRun glyphs scale maxTextureSize).pages.length =
      (initPagesRun glyphs scale maxTextureSize).closedGlyphKeys.length ∧
    ∀ j (hp : j < (initPagesRun glyphs scale maxTextureSize).pages.length)
        (hk : j < (initPagesRun glyphs scale maxTextureSize).closedGlyphKeys.length),
      ((initPagesRun glyphs scale maxTextureSize).pages.get ⟨j, hp⟩).textRuns.length =
        (firstOccur
          ((initPagesRun glyphs scale maxTextureSize).closedGlyphKeys.get ⟨j, hk⟩)).length := by
  obtain ⟨h1, h2, h3⟩ :=
    initPagesLoop_inv scale (cppTrunc ⌊(maxTextureSize : ℚ) / scale⌋) glyphs
      (BuildState.init scale) rfl rfl trivial
  apply pagesMatch_get
  unfold initPagesRun BuildState.close
  dsimp only
  apply pagesMatch_append _ _ _ _ h3
  rw [h2, h1]

/-- C9 witness: the grouping theorem applied to the four-glyph input
`overlapGlyphs` (one page, one shared style key, hence one run). -/
theorem claim_C9_style_grouping_witness :
    (initPagesRun overlapGlyphs 1 2048).pages.length =
      (initPagesRun overlapGlyphs 1 2048).closedGlyphKeys.length ∧
    ((initPagesRun overlapGlyphs 1 2048).pages.getD 0 ⟨[], 0, 0, 0⟩).textRuns.length =
      (firstOccur ((initPagesRun overlapGlyphs 1 2048).closedGlyphKeys.getD 0 [])).length := by
  refine ⟨(claim_C9_style_grouping overlapGlyphs 1 2048).1, ?_⟩
  have hp : 0 < (initPagesRun overlapGlyphs 1 2048).pages.length := by
    norm_num [initPagesRun, initPagesLoop, initPagesStep, BuildState.init, BuildState.close,
      RectanglePack.make, RectanglePack.addRect, RectanglePack.reset, cppTrunc, glyphPackSize,
      strokeInt, glyphDrawOrigin, appendGlyph, modifyIdx, findIdxD, alistLookup, upsert,
      ComputeStyleKey, CreateTextRun, mkLocator, Glyph.computeAtlasKey, mkG, QRect.scaleBy,
      overlapGlyphs]
  have hk : 0 < (initPagesRun overlapGlyphs 1 2048).closedGlyphKeys.length := by
    norm_num [initPagesRun, initPagesLoop, initPagesStep, BuildState.init, BuildState.close,
      RectanglePack.make, RectanglePack.addRect, RectanglePack.reset, cppTrunc, glyphPackSize,
      strokeInt, glyphDrawOrigin, appendGlyph, modifyIdx, findIdxD, alistLookup, upsert,
      ComputeStyleKey, CreateTextRun, mkLocator, Glyph.computeAtlasKey, mkG, QRect.scaleBy,
      overlapGlyphs]
  rw [List.getD_eq_getElem _ _ hp, List.getD_eq_getElem _ _ hk]
  exact (claim_C9_style_grouping overlapGlyphs 1 2048).2 0 hp hk

end PagSpec
